import Mathlib

/-!
Shallow embedding of the db_explorer HTTP handler package (db_explorer.go,
main.go) of the MySQL_Manager repository, together with theorems settling the
frozen claims about its specification.

The embedding keeps the source function names (CheckType, CheckColumn,
CastingValues, GetTables, GetTableValues, GetRecord, PutRecord, UpdateRecord,
DeleteRecord). The SQL driver and MySQL server are external collaborators;
their behaviour is modelled by small pure functions (sqlExists, sqlDelete,
sqlUpdate, sqlInsert, page selection) over an explicit list-of-rows database
state, and every handler additionally returns the list of SQL statement texts
it issued, so that claims about which statements run (and in which situations
none run) are statable. JSON bodies are modelled by an explicit value type; Go
map iteration order, which is unspecified, is modelled by quantifying over the
entry order in the claims that depend on it.
-/

namespace DBExplorer

/-- JSON values as produced by encoding/json when unmarshalling into dynamic
values, and as marshalled back in responses. JSON numbers decode to Go float64;
the embedding keeps integer-valued numbers exactly (as Int, the values produced
by the strconv.Atoi branch of outbound coercion) and keeps other floating
literals by their source text, since no claim computes with float arithmetic. -/
inductive Json where
  | null : Json
  | str (s : String) : Json
  | num (n : Int) : Json
  | float (txt : String) : Json
  | bool (b : Bool) : Json
  | arr (elems : List Json) : Json
  | obj (fields : List (String × Json)) : Json
deriving Repr

/-- Column metadata as exposed by database/sql ColumnType and stored by the
schema catalog: the column name, the name of the Go scan type reported by the
driver (ScanType().Name()), and the nullability flag. -/
structure ColumnType where
  name : String
  scanTypeName : String
  nullable : Bool
deriving DecidableEq, Repr

/-- The Table record of db_explorer.go lines 18-22: a discovered table name,
its ordered column names, and the parallel column metadata. -/
structure Table where
  name : String
  columns : List String
  columnTypes : List ColumnType
deriving DecidableEq, Repr

/-- Containment of one character list in another: some tail of the haystack
starts with the needle. This models Go strings.Contains (an empty needle is
contained in every string, as in Go). -/
def listContains (hay needle : List Char) : Bool :=
  hay.tails.any (fun t => needle.isPrefixOf t)

/-- Model of Go strings.Contains on strings. -/
def strContains (hay needle : String) : Bool :=
  listContains hay.data needle.data

/-- Model of Go strings.ToLower restricted to ASCII (all identifiers handled
by the claims are ASCII; Char.toLower lowercases exactly the ASCII uppercase
letters). -/
def lowerStr (s : String) : String :=
  String.mk (s.data.map Char.toLower)

/-- Split a character list at every occurrence of the separator character,
keeping empty pieces, as Go strings.Split does for a one-character
separator. -/
def splitOnChar (sep : Char) : List Char → List (List Char)
  | [] => [[]]
  | c :: rest =>
    let r := splitOnChar sep rest
    if c == sep then [] :: r
    else (c :: r.headD []) :: r.tail

/-- Model of Go strings.Split(path, "/"). -/
def goSplitSlash (s : String) : List String :=
  (splitOnChar '/' s.data).map String.mk

/-- The loop of GetRecord (db_explorer.go 341-345) computing idName: it walks
the columns in order and stores every column whose name contains "id"
(case-sensitively), without breaking, so the final value is the LAST such
column, or the empty string when none matches. -/
def getRecordIdName (t : Table) : String :=
  t.columns.foldl (fun idName val => if strContains val "id" then val else idName) ""

/-- The loop of UpdateRecord (db_explorer.go 566-571) computing idName: same
overwrite-without-break walk, but matching case-insensitively via ToLower. -/
def updateRecordIdName (t : Table) : String :=
  t.columns.foldl (fun idName c => if strContains (lowerStr c) "id" then c else idName) ""

/-- The loop of DeleteRecord (db_explorer.go 683-688) computing idName,
identical to the UpdateRecord loop (case-insensitive, last match wins). -/
def deleteRecordIdName (t : Table) : String :=
  t.columns.foldl (fun idName c => if strContains (lowerStr c) "id" then c else idName) ""

/-- Specification-side definition: the FIRST column whose name contains "id"
case-sensitively (empty string if none), as the claim words it for the read
path. -/
def firstIdColumnCS (t : Table) : String :=
  ((t.columns.filter (fun c => strContains c "id")).headD "")

/-- Specification-side definition: the FIRST column whose name contains "id"
case-insensitively (empty string if none), as the claim words it for the
update and delete paths. -/
def firstIdColumnCI (t : Table) : String :=
  ((t.columns.filter (fun c => strContains (lowerStr c) "id")).headD "")

/-- Specification-side definition: the LAST column whose name contains "id"
case-sensitively. -/
def lastIdColumnCS (t : Table) : String :=
  ((t.columns.filter (fun c => strContains c "id")).getLastD "")

/-- Specification-side definition: the LAST column whose name contains "id"
case-insensitively. -/
def lastIdColumnCI (t : Table) : String :=
  ((t.columns.filter (fun c => strContains (lowerStr c) "id")).getLastD "")

/-- A table with two columns whose names contain "id"; used to separate the
first-match reading of the claim from the last-match behaviour of the code. -/
def twoIdTable : Table :=
  { name := "posts"
    columns := ["user_id", "post_id"]
    columnTypes := [⟨"user_id", "int32", false⟩, ⟨"post_id", "int32", false⟩] }

/-- Name of the Go reflect type of a decoded JSON value, as
reflect.TypeOf(v).Name() returns it inside CheckType: "string", "float64"
(every JSON number decodes to Go float64), "bool"; map and slice values are
unnamed composite types, whose Name() is the empty string. The null case is
unreachable inside CheckType (nil is handled before reflect is consulted). -/
def reflectTypeName : Json → String
  | .str _ => "string"
  | .num _ => "float64"
  | .float _ => "float64"
  | .bool _ => "bool"
  | .null => ""
  | .arr _ => ""
  | .obj _ => ""

/-- The package-level constant FloatIntString of db_explorer.go line 529. -/
def FloatIntString : String := "float64 int32"

/-- Loop body of CheckType (db_explorer.go 531-550): walk all column metadata;
for each column whose name equals the key, a nil value returns the nullability
flag, a string value against a scan type other than RawBytes returns false, a
value whose reflect type name is a substring of FloatIntString against a scan
type name that is not a substring of FloatIntString returns false; otherwise
the walk continues, and falls through to true. -/
def CheckTypeLoop (key : String) (v : Json) : List ColumnType → Bool
  | [] => true
  | column :: rest =>
    if key == column.name then
      match v with
      | .null => column.nullable
      | _ =>
        if reflectTypeName v == "string" && column.scanTypeName != "RawBytes" then false
        else if !(strContains FloatIntString column.scanTypeName) &&
                strContains FloatIntString (reflectTypeName v) then false
        else CheckTypeLoop key v rest
    else CheckTypeLoop key v rest

/-- CheckType from db_explorer.go 531-550: inbound validation of a candidate
value for a named column against the table metadata. -/
def CheckType (key : String) (currentVal : Json) (t : Table) : Bool :=
  CheckTypeLoop key currentVal t.columnTypes

/-- Scan type names the go-sql-driver mysql driver can report for MySQL
columns: the Go numeric kinds for non-nullable numeric columns, RawBytes for
text, blob and other variable-length data, the sql Null wrappers for nullable
columns, and the time types. -/
def mysqlScanTypeNames : List String :=
  ["int8", "int16", "int32", "int64", "uint8", "uint16", "uint32", "uint64",
   "float32", "float64", "RawBytes", "NullInt64", "NullFloat64", "NullTime", "Time"]

/-- Specification-side definition: the scan type names among
mysqlScanTypeNames that denote numeric column contents. -/
def numericScanTypeNames : List String :=
  ["int8", "int16", "int32", "int64", "uint8", "uint16", "uint32", "uint64",
   "float32", "float64", "NullInt64", "NullFloat64"]

/-- Concrete table used to witness C5. -/
def c5Table : Table :=
  { name := "notes"
    columns := ["note_text", "created"]
    columnTypes := [⟨"note_text", "RawBytes", true⟩, ⟨"created", "NullTime", false⟩] }

/-- A raw scanned cell as CastingValues sees it after dereferencing the scan
destination: a database NULL, a byte sequence (the mysql driver delivers cell
contents as byte slices over the text protocol), or a dynamic value that is
neither nil nor a byte slice (this also stands for a scan destination that was
not an interface pointer, the other type assertion failure of the source). -/
inductive RawCell where
  | null
  | bytes (s : String)
  | nonBytes
deriving DecidableEq, Repr

/-- Errors CastingValues can return: the package error ErrCastingType, or the
error returned by strconv.Atoi respectively strconv.ParseFloat on a failed
parse (carrying the offending text). -/
inductive CastErr where
  | castingType
  | atoiErr (s : String)
  | parseFloatErr (s : String)
deriving DecidableEq, Repr

/-- Strip one leading sign character, as Go strconv does. -/
def dropSign : List Char → List Char
  | '+' :: r => r
  | '-' :: r => r
  | r => r

/-- Model of Go strconv.Atoi: an optional sign followed by one or more ASCII
decimal digits, with the value required to fit a 64-bit signed integer
(strconv.Atoi also returns a non-nil error on range overflow); none models a
non-nil error. -/
def goAtoi (s : String) : Option Int :=
  let sign : Int := match s.data with
    | '-' :: _ => -1
    | _ => 1
  let ds := dropSign s.data
  if ds.isEmpty || !ds.all Char.isDigit then none
  else
    let mag : Nat := ds.foldl (fun a c => a * 10 + (c.toNat - 48)) 0
    let v : Int := sign * (mag : Int)
    if v < -(2 ^ 63) || v > 2 ^ 63 - 1 then none else some v

/-- Longest leading run of decimal digits and the remainder. -/
def spanDigits (cs : List Char) : List Char × List Char :=
  (cs.takeWhile Char.isDigit, cs.dropWhile Char.isDigit)

/-- Longest leading run of hexadecimal digits and the remainder. -/
def spanHexDigits (cs : List Char) : List Char × List Char :=
  (cs.takeWhile (fun c => c.isDigit || (c.toLower ≥ 'a' && c.toLower ≤ 'f')),
   cs.dropWhile (fun c => c.isDigit || (c.toLower ≥ 'a' && c.toLower ≤ 'f')))

/-- Exponent suffix: an optional sign and one or more decimal digits ending
the input. -/
def expTailOk (cs : List Char) : Bool :=
  let ds := dropSign cs
  !ds.isEmpty && ds.all Char.isDigit && (spanDigits ds).2.isEmpty

/-- Decimal mantissa with optional fraction and optional decimal exponent:
digits, an optional dot with further digits, at least one digit overall, then
optionally e or E with a signed digit run. -/
def goDecFloatOk (cs : List Char) : Bool :=
  let (ip, r1) := spanDigits cs
  let (fp, r2) := match r1 with
    | '.' :: rest => spanDigits rest
    | _ => ([], r1)
  if ip.isEmpty && fp.isEmpty then false
  else match r2 with
    | [] => true
    | e :: rest => (e == 'e' || e == 'E') && expTailOk rest

/-- Hexadecimal mantissa 0x form with mandatory binary exponent p or P. -/
def goHexFloatOk (cs : List Char) : Bool :=
  match cs with
  | '0' :: x :: rest =>
    (x == 'x' || x == 'X') &&
    (let (ip, r1) := spanHexDigits rest
     let (fp, r2) := match r1 with
       | '.' :: more => spanHexDigits more
       | _ => ([], r1)
     if ip.isEmpty && fp.isEmpty then false
     else match r2 with
       | p :: more => (p == 'p' || p == 'P') && expTailOk more
       | [] => false)
  | _ => false

/-- Model of the acceptance of Go strconv.ParseFloat with 64-bit precision: a
possibly signed infinity, an unsigned NaN (both case-insensitive), or a signed
decimal or hexadecimal floating literal. The produced 64-bit value, its
rounding and the overflow-to-ErrRange corner of very large decimal exponents
live inside strconv and the platform float unit and are not modelled; no claim
depends on them. Digit-group underscores are likewise not modelled. -/
def goParseFloatOk (s : String) : Bool :=
  let cs := dropSign s.data
  let low := cs.map Char.toLower
  if low == "inf".data || low == "infinity".data then true
  else if s.data.map Char.toLower == "nan".data then true
  else goDecFloatOk cs || goHexFloatOk cs

/-- Per-cell body of the CastingValues loop (db_explorer.go 163-199): a nil
cell stays nil; a non-nil cell must be a byte slice (otherwise ErrCastingType);
a byte slice is parsed with strconv.Atoi when the scan type name contains
"int", parsed with strconv.ParseFloat when it contains "float" (the parse
error is returned on failure in both cases), and kept verbatim as a string
otherwise. -/
def castCell (ct : ColumnType) (cell : RawCell) : Except CastErr Json :=
  match cell with
  | .nonBytes => .error .castingType
  | .null => .ok .null
  | .bytes b =>
    if strContains ct.scanTypeName "int" then
      match goAtoi b with
      | some n => .ok (.num n)
      | none => .error (.atoiErr b)
    else if strContains ct.scanTypeName "float" then
      if goParseFloatOk b then .ok (.float b) else .error (.parseFloatErr b)
    else .ok (.str b)

/-- CastingValues from db_explorer.go 163-199, positionally zipping the column
metadata with the scanned cells (the scan contract makes both lists the same
length). -/
def CastingValues : List ColumnType → List RawCell → Except CastErr (List Json)
  | ct :: cts, c :: cs => do
    let v ← castCell ct c
    let rest ← CastingValues cts cs
    .ok (v :: rest)
  | _, _ => .ok []

/-- Classification of a scan type name exactly as the claim words it: the
"int" substring is checked first, then "float", otherwise string. -/
inductive ScanKind where
  | intKind
  | floatKind
  | strKind
deriving DecidableEq, Repr

/-- Specification-side classifier for the outbound coercion dispatch. -/
def scanKindOf (scanTypeName : String) : ScanKind :=
  if strContains scanTypeName "int" then .intKind
  else if strContains scanTypeName "float" then .floatKind
  else .strKind

/-- Specification-side per-cell coercion following the amended claim: null
stays null, a non-byte cell fails with CastingError, integer columns parse
with Atoi and fail with the Atoi parse error, float columns parse with
ParseFloat and fail with the ParseFloat parse error, all other columns keep
the bytes verbatim as a string. -/
def specCastCell (ct : ColumnType) (cell : RawCell) : Except CastErr Json :=
  match cell, scanKindOf ct.scanTypeName with
  | .null, _ => .ok .null
  | .nonBytes, _ => .error .castingType
  | .bytes b, .intKind => (goAtoi b).elim (.error (.atoiErr b)) (fun n => .ok (.num n))
  | .bytes b, .floatKind =>
    if goParseFloatOk b then .ok (.float b) else .error (.parseFloatErr b)
  | .bytes b, .strKind => .ok (.str b)

/-- Body shape of an HTTP response: a marshalled JSON document, the plain text
written by Go http.Error (its trailing newline is dropped), or the empty body
an unmatched route produces. -/
inductive RespBody where
  | jsonBody (j : Json)
  | textBody (s : String)
  | emptyBody
deriving Repr

/-- An HTTP response: status code and body. A handler that writes a body
without calling WriteHeader gets status 200 from the transport. -/
structure HttpResp where
  status : Nat
  body : RespBody
deriving Repr

/-- A cell value stored in the modelled database: NULL or a byte string (the
mysql text protocol delivers every non-null cell as bytes). -/
abbrev Cell := Option String

/-- A stored row: one cell per column name. -/
abbrev Row := List (String × Cell)

/-- The cell a row holds for a column (NULL when the row lacks the column,
which a consistent database never exhibits). -/
def rowCell (r : Row) (c : String) : Cell :=
  match r.find? (fun kv => kv.1 == c) with
  | some kv => kv.2
  | none => none

/-- Convert a stored cell to the raw dynamic value the driver scan produces. -/
def cellToRaw : Cell → RawCell
  | none => .null
  | some s => .bytes s

/-- The modelled database: rows per table name. -/
abbrev Database := List (String × List Row)

/-- Rows of a named table. -/
def dbRows (db : Database) (name : String) : List Row :=
  match db.find? (fun kv => kv.1 == name) with
  | some kv => kv.2
  | none => []

/-- Replace the rows of a named table. -/
def dbSet (db : Database) (name : String) (rows : List Row) : Database :=
  db.map (fun kv => if kv.1 == name then (kv.1, rows) else kv)

/-- Field list of a marshalled Go map: encoding/json serializes map keys in
ascending order. -/
def sortFields (fs : List (String × Json)) : List (String × Json) :=
  List.insertionSort (fun a b => a.1 ≤ b.1) fs

/-- Error text of a CastErr, as err.Error() produces it (the strconv error
texts are driver and library formatted; no claim reads them, so the format
here is indicative). -/
def castErrText : CastErr → String
  | .castingType => "casting type error"
  | .atoiErr s => "strconv.Atoi: parsing " ++ s ++ ": invalid syntax"
  | .parseFloatErr s => "strconv.ParseFloat: parsing " ++ s ++ ": invalid syntax"

/-- Modelled MySQL error text for a malformed or column-less WHERE clause. -/
def badSqlMsg : String := "Error 1064: bad SQL query"

/-- Modelled MySQL error text for a reference to an unknown column. -/
def unknownColumnMsg : String := "Error 1054: unknown column"

/-- Modelled MySQL error text for a parameter the driver cannot convert. -/
def badParamMsg : String := "unsupported parameter type"

/-- Modelled behaviour of the EXISTS probe the read and update handlers issue:
the query fails (MySQL rejects the SQL) when the referenced id column is not a
column of the table, in particular when the inferred id name is empty and the
WHERE clause is malformed; otherwise it reports whether some row matches. -/
def sqlExists (cols : List String) (idName idVal : String) (rows : List Row) :
    Except String Bool :=
  if cols.contains idName then
    .ok (rows.any (fun r => rowCell r idName == some idVal))
  else .error badSqlMsg

/-- Modelled behaviour of DELETE FROM table WHERE idName = ?: fails when the
id column is not a column of the table; otherwise removes every matching row
and reports the affected-row count. -/
def sqlDelete (cols : List String) (idName idVal : String) (rows : List Row) :
    Except String (Nat × List Row) :=
  if cols.contains idName then
    .ok ((rows.filter (fun r => rowCell r idName == some idVal)).length,
         rows.filter (fun r => !(rowCell r idName == some idVal)))
  else .error badSqlMsg

/-- Driver-side conversion of a JSON-decoded dynamic value into a SQL
parameter cell; composite values cannot be converted and make the execution
fail. -/
def jsonToCell : Json → Option Cell
  | .null => some none
  | .str s => some (some s)
  | .num n => some (some (toString n))
  | .float txt => some (some txt)
  | .bool b => some (some (if b then "1" else "0"))
  | .arr _ => none
  | .obj _ => none

/-- Convert the update field pairs into parameter cells. -/
def cellsOfPairs (pairs : List (String × Json)) : Option (List (String × Cell)) :=
  pairs.mapM (fun kv => (jsonToCell kv.2).map (fun c => (kv.1, c)))

/-- Overwrite the cells of a row with the given assignments. -/
def applyPairs (cs : List (String × Cell)) (r : Row) : Row :=
  r.map (fun kv =>
    match cs.find? (fun p => p.1 == kv.1) with
    | some p => (kv.1, p.2)
    | none => kv)

/-- Modelled behaviour of UPDATE table SET ... WHERE idName = id: fails on a
malformed WHERE clause (id name not a column), an unknown SET column, or an
inconvertible parameter; otherwise rewrites the matching rows and reports the
number of rows actually changed (the MySQL default affected-rows count). -/
def sqlUpdate (t : Table) (pairs : List (String × Json)) (idName idVal : String)
    (rows : List Row) : Except String (Nat × List Row) :=
  if !(t.columns.contains idName) then .error badSqlMsg
  else if !(pairs.all (fun kv => t.columns.contains kv.1)) then .error unknownColumnMsg
  else
    match cellsOfPairs pairs with
    | none => .error badParamMsg
    | some cs =>
      .ok ((rows.filter (fun r =>
              rowCell r idName == some idVal && !(applyPairs cs r == r))).length,
           rows.map (fun r => if rowCell r idName == some idVal then applyPairs cs r else r))

/-- Convert insert values into parameter cells. -/
def cellsOfVals (vals : List Json) : Option (List Cell) :=
  vals.mapM jsonToCell

/-- Modelled behaviour of the prepared INSERT: fails on an unknown column or
an inconvertible parameter; otherwise appends a row holding the given values
(missing columns stay NULL) and reports the auto-increment identifier, modelled
as one past the number of stored rows. -/
def sqlInsert (t : Table) (fields : List String) (vals : List Json) (rows : List Row) :
    Except String (Int × List Row) :=
  if !(fields.all (fun f => t.columns.contains f)) then .error unknownColumnMsg
  else
    match cellsOfVals vals with
    | none => .error badParamMsg
    | some cs =>
      let assigned := fields.zip cs
      let newRow : Row := t.columns.map (fun c =>
        (c, match assigned.find? (fun kv => kv.1 == c) with
            | some kv => kv.2
            | none => none))
      .ok (((rows.length : Nat) : Int) + 1, rows ++ [newRow])

/-- GetTables (db_explorer.go 201-227): collect the catalog table names (map
iteration order is arbitrary; the catalog is carried as a list standing for
one such order) and sort them ascending with sort.Slice; the sort is modelled
extensionally by insertion sort, which produces the same sorted sequence. -/
def GetTables (catalog : List Table) : HttpResp :=
  let tableNames := List.insertionSort (fun a b : String => a ≤ b) (catalog.map Table.name)
  ⟨200, .jsonBody (.obj [("response", .obj [("tables", .arr (tableNames.map Json.str))])])⟩

/-- Model of regexp.MatchString with pattern caret-digits-dollar: true exactly
for non-empty all-ASCII-digit strings. -/
def regMatchDigits (s : String) : Bool :=
  !s.data.isEmpty && s.data.all Char.isDigit

/-- Numeric value of an all-digits string. -/
def digitsToNat (s : String) : Nat :=
  s.data.foldl (fun a c => a * 10 + (c.toNat - 48)) 0

/-- The LIMIT text GetTableValues uses: the raw query parameter unless it is
absent or fails the digits pattern, in which case the literal "5". -/
def effectiveLimit (limQuery : String) : String :=
  if limQuery == "" || !regMatchDigits limQuery then "5" else limQuery

/-- The OFFSET text GetTableValues uses, defaulting to "0". -/
def effectiveOffset (offQuery : String) : String :=
  if offQuery == "" || !regMatchDigits offQuery then "0" else offQuery

/-- The SELECT statement GetTableValues interpolates and executes. -/
def listRowsQuery (t : Table) (limQuery offQuery : String) : String :=
  "SELECT * FROM " ++ t.name ++ " LIMIT " ++ effectiveLimit limQuery ++
    " OFFSET " ++ effectiveOffset offQuery

/-- Raw cells of a stored row in table column order, as the scan loop fills
them. -/
def scanRow (t : Table) (r : Row) : List RawCell :=
  t.columns.map (fun c => cellToRaw (rowCell r c))

/-- Cast every row of a result page, building one marshalled record object per
row (Go marshals the per-row map with sorted keys); the first casting error
aborts. -/
def castRows (t : Table) : List Row → Except CastErr (List Json)
  | [] => .ok []
  | r :: rest => do
    let vals ← CastingValues t.columnTypes (scanRow t r)
    let restJ ← castRows t rest
    .ok (Json.obj (sortFields ((t.columnTypes.map ColumnType.name).zip vals)) :: restJ)

/-- GetTableValues (db_explorer.go 229-320): validates limit and offset
against the digits pattern with defaults "5" and "0", interpolates them into
the SELECT text, pages the stored rows, casts them, and answers with the
records array (500 on a casting failure). -/
def GetTableValues (t : Table) (limQuery offQuery : String) (rows : List Row) :
    HttpResp × List Row × List String :=
  let query := listRowsQuery t limQuery offQuery
  let page := (rows.drop (digitsToNat (effectiveOffset offQuery))).take
    (digitsToNat (effectiveLimit limQuery))
  match castRows t page with
  | .error e => (⟨500, .textBody (castErrText e)⟩, rows, [query])
  | .ok records =>
    (⟨200, .jsonBody (.obj [("response", .obj [("records", .arr records)])])⟩, rows, [query])

/-- The parameterized EXISTS statement GetRecord issues. -/
def getExistsQuery (t : Table) : String :=
  "SELECT EXISTS(SELECT * FROM " ++ t.name ++ " WHERE " ++ getRecordIdName t ++ " = ?)"

/-- The literal-interpolated SELECT statement GetRecord issues. -/
def getSelectQuery (t : Table) (id : String) : String :=
  "SELECT * FROM " ++ t.name ++ " WHERE " ++ getRecordIdName t ++ " = " ++ id

/-- GetRecord (db_explorer.go 322-426): extract the id from the second path
segment, infer the id column case-sensitively (400 "unknown parameter" when no
column matches, before any SQL), probe existence with a parameterized EXISTS
(404 when absent), then re-query with the id interpolated literally; the scan
loop keeps the cells of the last returned row, casts them and answers with the
record object. -/
def GetRecord (t : Table) (path : String) (rows : List Row) :
    HttpResp × List Row × List String :=
  match (goSplitSlash path).get? 2 with
  | none => (⟨400, .textBody "bad request"⟩, rows, [])
  | some id =>
    let idName := getRecordIdName t
    if idName == "" then (⟨400, .textBody "unknown parameter"⟩, rows, [])
    else
      match sqlExists t.columns idName id rows with
      | .error e => (⟨500, .textBody e⟩, rows, [getExistsQuery t])
      | .ok false =>
        (⟨404, .jsonBody (.obj [("error", .str "record not found")])⟩, rows, [getExistsQuery t])
      | .ok true =>
        let matched := rows.filter (fun r => rowCell r idName == some id)
        let cells : List RawCell := match matched.getLast? with
          | some r => scanRow t r
          | none => t.columns.map (fun _ => RawCell.nonBytes)
        match CastingValues t.columnTypes cells with
        | .error e =>
          (⟨500, .textBody (castErrText e)⟩, rows, [getExistsQuery t, getSelectQuery t id])
        | .ok vals =>
          let record := sortFields ((t.columnTypes.map ColumnType.name).zip vals)
          (⟨200, .jsonBody (.obj [("response", .obj [("record", .obj record)])])⟩,
           rows, [getExistsQuery t, getSelectQuery t id])

/-- CheckColumn from db_explorer.go 428-435: membership of a name in the
column list. -/
def CheckColumn (val : String) (t : Table) : Bool :=
  t.columns.contains val

/-- Last body value supplied for a key (encoding/json keeps the last duplicate
of a repeated object key). -/
def lookupLast (body : List (String × Json)) (k : String) : Option Json :=
  ((body.filter (fun kv => kv.1 == k)).getLast?).map (fun kv => kv.2)

/-- The value map PutRecord builds before its selection loop: every table
column seeded with nil, merged with the body, keys outside the column list
deleted — so exactly one entry per table column, holding the body value when
supplied and nil otherwise. Go iterates this map in unspecified order; the
handler is modelled iterating in column order, and the selection core
putSelect is proven for every order. -/
def mergedPutEntries (t : Table) (body : List (String × Json)) : List (String × Json) :=
  t.columns.map (fun c => (c, (lookupLast body c).getD Json.null))

/-- One step of the PutRecord selection loop (db_explorer.go 474-487): a key
containing "id" (case-sensitively) only overwrites the response key name;
every other key is appended to the insert field list, with its value when
CheckType accepts it and with the empty string otherwise. -/
def putStep (t : Table) (acc : List String × List Json × String) (kv : String × Json) :
    List String × List Json × String :=
  if !(strContains kv.1 "id") && CheckType kv.1 kv.2 t then
    (acc.1 ++ [kv.1], acc.2.1 ++ [kv.2], acc.2.2)
  else if !(strContains kv.1 "id") then
    (acc.1 ++ [kv.1], acc.2.1 ++ [Json.str ""], acc.2.2)
  else (acc.1, acc.2.1, kv.1)

/-- Selection loop of PutRecord (db_explorer.go 474-487) over the merged value
entries. -/
def putSelect (t : Table) (entries : List (String × Json)) :
    List String × List Json × String :=
  entries.foldl (putStep t) ([], [], "")

/-- The INSERT statement PutRecord prepares. -/
def putQuery (t : Table) (fields : List String) : String :=
  "INSERT INTO " ++ t.name ++ " (" ++ String.intercalate ", " fields ++ ") VALUES (" ++
    String.intercalate ", " (fields.map (fun _ => "?")) ++ ")"

/-- PutRecord (db_explorer.go 437-527): build the merged value map, run the
selection loop, prepare and execute the INSERT, and answer with the
database-assigned identifier keyed by the diverted id name. -/
def PutRecord (t : Table) (body : List (String × Json)) (rows : List Row) :
    HttpResp × List Row × List String :=
  let sel := putSelect t (mergedPutEntries t body)
  let query := putQuery t sel.1
  match sqlInsert t sel.1 sel.2.1 rows with
  | .error e => (⟨500, .textBody e⟩, rows, [query])
  | .ok (newId, rows2) =>
    (⟨200, .jsonBody (.obj [("response", .obj [(sel.2.2, .num newId)])])⟩, rows2, [query])

/-- The parameterized EXISTS statement UpdateRecord issues. -/
def updateExistsQuery (t : Table) : String :=
  "SELECT EXISTS (SELECT * FROM " ++ t.name ++ " WHERE " ++ updateRecordIdName t ++ "=?)"

/-- Replace up to n occurrences of a character (every occurrence when n is
negative), as strings.Replace does for a one-character pattern. -/
def replaceCharN (old : Char) (new : List Char) : List Char → Int → List Char
  | [], _ => []
  | c :: rest, n =>
    if c == old then
      if n == 0 then c :: replaceCharN old new rest 0
      else new ++ replaceCharN old new rest (n - 1)
    else c :: replaceCharN old new rest n

/-- Model of strings.Replace(s, "?", new, n). -/
def goReplaceQm (s : String) (new : String) (n : Int) : String :=
  String.mk (replaceCharN '?' new.data s.data n)

/-- Validation loop of UpdateRecord (db_explorer.go 614-635): walk the body
entries; the first entry rejected by CheckType or naming the id column aborts
with that key; otherwise collect the pairs for the SET clause. -/
def updateValidate (t : Table) (idName : String) :
    List (String × Json) → Except String (List (String × Json))
  | [] => .ok []
  | (k, v) :: rest =>
    if !(CheckType k v t) || idName == k then .error k
    else
      match updateValidate t idName rest with
      | .error e => .error e
      | .ok tail => .ok ((k, v) :: tail)

/-- The SET clause text UpdateRecord builds: concatenate key-equals-mark
pieces, then let strings.Replace insert commas after all but the last mark. -/
def updateSetClause (pairs : List (String × Json)) (bodyLen : Nat) : String :=
  goReplaceQm (pairs.foldl (fun acc kv => acc ++ kv.1 ++ " = ?") "") "?," ((bodyLen : Int) - 1)

/-- The UPDATE statement UpdateRecord executes (id interpolated literally). -/
def updateQuery (t : Table) (pairs : List (String × Json)) (bodyLen : Nat) (id : String) :
    String :=
  "UPDATE " ++ t.name ++ " SET " ++ updateSetClause pairs bodyLen ++
    " WHERE " ++ updateRecordIdName t ++ " = " ++ id

/-- UpdateRecord (db_explorer.go 551-665): extract the id from the second path
segment, infer the id column case-insensitively, probe existence (404 when
absent), validate every supplied field (400 "field k have invalid type" on the
first rejected or id-naming field, before any UPDATE is issued), then build
and execute the UPDATE and answer with the affected-row count. -/
def UpdateRecord (t : Table) (path : String) (body : List (String × Json))
    (rows : List Row) : HttpResp × List Row × List String :=
  match (goSplitSlash path).get? 2 with
  | none => (⟨400, .textBody "bad request"⟩, rows, [])
  | some id =>
    let idName := updateRecordIdName t
    match sqlExists t.columns idName id rows with
    | .error e => (⟨500, .textBody e⟩, rows, [updateExistsQuery t])
    | .ok false =>
      (⟨404, .jsonBody (.obj [("error", .str "record not found")])⟩, rows,
       [updateExistsQuery t])
    | .ok true =>
      match updateValidate t idName body with
      | .error k =>
        (⟨400, .jsonBody (.obj [("error", .str ("field " ++ k ++ " have invalid type"))])⟩,
         rows, [updateExistsQuery t])
      | .ok pairs =>
        let query := updateQuery t pairs body.length id
        match sqlUpdate t pairs idName id rows with
        | .error e => (⟨500, .textBody e⟩, rows, [updateExistsQuery t, query])
        | .ok (n, rows2) =>
          (⟨200, .jsonBody (.obj [("response", .obj [("updated", .num (n : Int))])])⟩,
           rows2, [updateExistsQuery t, query])

/-- The parameterized DELETE statement DeleteRecord executes. -/
def deleteQuery (t : Table) : String :=
  "DELETE FROM " ++ t.name ++ " WHERE " ++ deleteRecordIdName t ++ " = ? "

/-- DeleteRecord (db_explorer.go 667-718): extract the id from the second path
segment, infer the id column case-insensitively, and directly execute the
parameterized DELETE (no existence probe), answering with the affected-row
count. -/
def DeleteRecord (t : Table) (path : String) (rows : List Row) :
    HttpResp × List Row × List String :=
  match (goSplitSlash path).get? 2 with
  | none => (⟨400, .textBody "bad request"⟩, rows, [])
  | some id =>
    match sqlDelete t.columns (deleteRecordIdName t) id rows with
    | .error e => (⟨500, .textBody e⟩, rows, [deleteQuery t])
    | .ok (n, rows2) =>
      (⟨200, .jsonBody (.obj [("response", .obj [("deleted", .num (n : Int))])])⟩,
       rows2, [deleteQuery t])

/-- An incoming request: method, URL path (query string already stripped, as
in r.URL.Path), the raw limit and offset query parameter texts (empty when
absent, as url.Values.Get reports them), and the decoded JSON object body. -/
structure Request where
  method : String
  path : String
  limitParam : String
  offsetParam : String
  body : List (String × Json)

/-- Characters admitted inside a path segment by the bracket class of the
deep-path patterns (letters and digits; the slash of the class is the segment
separator itself). -/
def segAlnum (s : String) : Bool :=
  s.data.all (fun c => c.isAlpha || c.isDigit)

/-- A table-name segment: non-empty, leading letter, letters and digits
afterwards. -/
def tableSeg (s : String) : Bool :=
  match s.data with
  | c :: rest => c.isAlpha && rest.all (fun x => x.isAlpha || x.isDigit)
  | [] => false

/-- Route pattern 2 (list rows): a single non-empty path segment free of
slashes and question marks. The vestigial group of the source pattern that
names limit and offset text never participates, because the pattern is tested
against r.URL.Path, which carries no query string; its optional-colon branch
is not modelled. -/
def matchListRows (path : String) : Bool :=
  match goSplitSlash path with
  | ["", seg] => !seg.isEmpty && seg.data.all (fun c => !(c == '?'))
  | _ => false

/-- Route pattern 3 (get one row): slash, table segment, slash, digits. -/
def matchGetOne (path : String) : Bool :=
  match goSplitSlash path with
  | ["", seg1, seg2] => tableSeg seg1 && !seg2.isEmpty && seg2.data.all Char.isDigit
  | _ => false

/-- Route pattern 4 (insert): slash, a letter, letters digits and slashes,
ending in a slash. -/
def matchPut (path : String) : Bool :=
  match goSplitSlash path with
  | "" :: segs =>
    decide (2 ≤ segs.length) && (segs.getLast? == some "") &&
      (match segs.head? with
       | some s1 => tableSeg s1
       | none => false) &&
      ((segs.drop 1).dropLast.all segAlnum)
  | _ => false

/-- Route patterns 5 and 6 (update, delete): slash, a letter, letters digits
and slashes, a slash, then digits to the end. -/
def matchDeepId (path : String) : Bool :=
  match goSplitSlash path with
  | "" :: segs =>
    decide (2 ≤ segs.length) &&
      (match segs.head? with
       | some s1 => tableSeg s1
       | none => false) &&
      ((segs.drop 1).dropLast.all segAlnum) &&
      (match segs.getLast? with
       | some sl => !sl.isEmpty && sl.data.all Char.isDigit
       | none => false)
  | _ => false

/-- CheckTable (db_explorer.go 130-159) composed with a handler body: resolve
the table from the first path segment, answer 400 on a degenerate path and 404
with the unknown-table body when the catalog lacks the name, and otherwise run
the handler on the rows of that table. -/
def handleTable (catalog : List Table) (db : Database) (path : String)
    (h : Table → List Row → HttpResp × List Row × List String) :
    HttpResp × Database × List String :=
  match (goSplitSlash path).get? 1 with
  | none => (⟨400, .textBody "Bad Request"⟩, db, [])
  | some tname =>
    match catalog.find? (fun t => t.name == tname) with
    | none => (⟨404, .jsonBody (.obj [("error", .str "unknown table")])⟩, db, [])
    | some t =>
      let res := h t (dbRows db t.name)
      (res.1, dbSet db t.name res.2.1, res.2.2)

/-- The request multiplexer (db_explorer.go 85-102 and PathDefinition 116-128):
the fixed rule list is walked in declaration order and the first rule whose
pattern matches the path and whose method equals the request method runs; an
unmatched request gets no handler, leaving the default empty 200 response. -/
def handleRequest (catalog : List Table) (db : Database) (req : Request) :
    HttpResp × Database × List String :=
  if req.path == "/" && req.method == "GET" then (GetTables catalog, db, [])
  else if matchListRows req.path && req.method == "GET" then
    handleTable catalog db req.path
      (fun t rows => GetTableValues t req.limitParam req.offsetParam rows)
  else if matchGetOne req.path && req.method == "GET" then
    handleTable catalog db req.path (fun t rows => GetRecord t req.path rows)
  else if matchPut req.path && req.method == "PUT" then
    handleTable catalog db req.path (fun t rows => PutRecord t req.body rows)
  else if matchDeepId req.path && req.method == "POST" then
    handleTable catalog db req.path (fun t rows => UpdateRecord t req.path req.body rows)
  else if matchDeepId req.path && req.method == "DELETE" then
    handleTable catalog db req.path (fun t rows => DeleteRecord t req.path rows)
  else (⟨200, .emptyBody⟩, db, [])

/-- The server state: the schema catalog built by NewDBExplorer at startup and
the database contents. -/
structure ServerState where
  catalog : List Table
  db : Database

/-- Serving one request: the handlers may change the database but only read
the catalog. -/
def stepServer (st : ServerState) (req : Request) :
    ServerState × HttpResp × List String :=
  let res := handleRequest st.catalog st.db req
  (⟨st.catalog, res.2.1⟩, res.1, res.2.2)

/-- Serving a sequence of requests. -/
def serve (st : ServerState) (reqs : List Request) : ServerState :=
  reqs.foldl (fun s r => (stepServer s r).1) st

/-- Concrete table used in witnesses: one integer id column. -/
def c4Table : Table :=
  { name := "items", columns := ["item_id"], columnTypes := [⟨"item_id", "int32", false⟩] }

/-- Concrete stored rows for c4Table whose single cell is not numeric text. -/
def c4Rows : List Row := [[("item_id", some "abc")]]

/-- Concrete column-less table named a, used in the C8 witness. -/
def c8TableA : Table := ⟨"a", [], []⟩

/-- Concrete column-less table named b, used in the C8 witness. -/
def c8TableB : Table := ⟨"b", [], []⟩

/-- The deleted-count success response of DeleteRecord. -/
def deletedResp (n : Nat) : HttpResp :=
  ⟨200, .jsonBody (.obj [("response", .obj [("deleted", .num (n : Int))])])⟩

/-- Concrete table with an integer id column and a text column, used in the
C2, C3 and C6 witnesses. -/
def ordersTable : Table :=
  { name := "orders"
    columns := ["order_id", "title"]
    columnTypes := [⟨"order_id", "int32", false⟩, ⟨"title", "RawBytes", false⟩] }

/-- Concrete stored rows for ordersTable. -/
def ordersRows : List Row :=
  [[("order_id", some "1"), ("title", some "first")],
   [("order_id", some "2"), ("title", some "second")]]

/-- Concrete table without any id-matching column, used in the C10 witness. -/
def plainTable : Table :=
  { name := "plain"
    columns := ["name", "age"]
    columnTypes := [⟨"name", "RawBytes", false⟩, ⟨"age", "int32", false⟩] }

/-! Theorems.  Every claim id of CLAIMS.json is settled by exactly one theorem
below (plus a counterexample for corrected claims and a witness for theorems
with hypotheses). -/

/-- A fold that overwrites its accumulator at every element satisfying p
computes the last satisfying element (with the initial value as default). -/
theorem foldl_keepIf_eq_getLastD (p : String → Bool) (xs : List String) (init : String) :
    xs.foldl (fun acc v => if p v then v else acc) init = (xs.filter p).getLastD init := by
  induction xs generalizing init with
  | nil => rfl
  | cons x rest ih =>
    by_cases h : p x
    · simp only [List.foldl_cons, h, if_true, List.filter_cons, List.getLastD_cons, ih]
    · simp only [List.foldl_cons, h, if_false, List.filter_cons, ih]
      simp [h]

/-- C1 counterexample: on a table with columns user_id, post_id (both contain
"id"), all three handlers select post_id, the LAST match in column order,
whereas the claim says the FIRST such match (user_id) is selected. -/
theorem C1_counterexample :
    getRecordIdName twoIdTable = "post_id" ∧
    updateRecordIdName twoIdTable = "post_id" ∧
    deleteRecordIdName twoIdTable = "post_id" ∧
    firstIdColumnCS twoIdTable = "user_id" ∧
    firstIdColumnCI twoIdTable = "user_id" ∧
    ("post_id" : String) ≠ "user_id" :=
  ⟨rfl, rfl, rfl, rfl, rfl, by decide⟩

/-- C1 (amended): for every table, the id column used by id-based operations
is the LAST column whose name contains the substring "id": the get-row handler
matches case-sensitively, while the update and delete handlers match
case-insensitively; in all three handlers the column selected is the last such
match in the table column order (empty string when no column matches). -/
theorem C1_amended (t : Table) :
    getRecordIdName t = lastIdColumnCS t ∧
    updateRecordIdName t = lastIdColumnCI t ∧
    deleteRecordIdName t = lastIdColumnCI t :=
  ⟨foldl_keepIf_eq_getLastD _ _ _, foldl_keepIf_eq_getLastD _ _ _,
   foldl_keepIf_eq_getLastD _ _ _⟩

theorem CheckTypeLoop_not_found (key : String) (v : Json) (l : List ColumnType)
    (h : ∀ ct ∈ l, ct.name ≠ key) : CheckTypeLoop key v l = true := by
  induction l with
  | nil => rfl
  | cons c rest ih =>
    have hc : (key == c.name) = false := by
      have := h c (List.mem_cons_self c rest)
      simp [beq_iff_eq]
      exact fun he => this he.symm
    have hrest : ∀ ct ∈ rest, ct.name ≠ key := fun ct hm => h ct (List.mem_cons_of_mem _ hm)
    cases v <;> simp [CheckTypeLoop, hc, ih hrest]

/-- In a metadata list with pairwise distinct column names, the member whose
name equals the key decides the null case: the loop returns its nullability. -/
theorem CheckTypeLoop_null (key : String) (l : List ColumnType) (ct : ColumnType)
    (hmem : ct ∈ l) (hkey : ct.name = key)
    (hnodup : (l.map ColumnType.name).Nodup) :
    CheckTypeLoop key Json.null l = ct.nullable := by
  induction l with
  | nil => cases hmem
  | cons c rest ih =>
    rcases List.mem_cons.mp hmem with hex | hmem2
    · subst hex
      simp [CheckTypeLoop, hkey]
    · have hcname : c.name ≠ key := by
        intro he
        have : ct.name ∈ rest.map ColumnType.name := List.mem_map_of_mem _ hmem2
        rw [hkey, ← he] at this
        exact (List.nodup_cons.mp (by simpa using hnodup)).1 this
      have hc : (key == c.name) = false := by
        simp [beq_iff_eq]; exact fun he => hcname he.symm
      simp only [CheckTypeLoop, hc, Bool.false_eq_true, if_false]
      exact ih hmem2 ((List.nodup_cons.mp (by simpa using hnodup)).2)

/-- String-valued candidates: when the scan type of the matching column is
not RawBytes, the loop rejects. -/
theorem CheckTypeLoop_str (key s : String) (l : List ColumnType) (ct : ColumnType)
    (hmem : ct ∈ l) (hkey : ct.name = key)
    (hnodup : (l.map ColumnType.name).Nodup)
    (hscan : ct.scanTypeName ≠ "RawBytes") :
    CheckTypeLoop key (Json.str s) l = false := by
  induction l with
  | nil => cases hmem
  | cons c rest ih =>
    rcases List.mem_cons.mp hmem with hex | hmem2
    · subst hex
      have h1 : (ct.scanTypeName != "RawBytes") = true := by
        simp [bne_iff_ne]; exact hscan
      simp [CheckTypeLoop, hkey, reflectTypeName, h1]
    · have hcname : c.name ≠ key := by
        intro he
        have : ct.name ∈ rest.map ColumnType.name := List.mem_map_of_mem _ hmem2
        rw [hkey, ← he] at this
        exact (List.nodup_cons.mp (by simpa using hnodup)).1 this
      have hc : (key == c.name) = false := by
        simp [beq_iff_eq]; exact fun he => hcname he.symm
      simp only [CheckTypeLoop, hc, Bool.false_eq_true, if_false]
      exact ih hmem2 ((List.nodup_cons.mp (by simpa using hnodup)).2)

/-- Numeric candidates (reflect type float64): when the scan type name of the
matching column is not a substring of FloatIntString, the loop rejects. -/
theorem CheckTypeLoop_num (key : String) (n : Int) (l : List ColumnType) (ct : ColumnType)
    (hmem : ct ∈ l) (hkey : ct.name = key)
    (hnodup : (l.map ColumnType.name).Nodup)
    (hscan : strContains FloatIntString ct.scanTypeName = false) :
    CheckTypeLoop key (Json.num n) l = false := by
  induction l with
  | nil => cases hmem
  | cons c rest ih =>
    rcases List.mem_cons.mp hmem with hex | hmem2
    · subst hex
      have hfl : strContains FloatIntString "float64" = true := by decide
      simp [CheckTypeLoop, hkey, reflectTypeName, hscan, hfl]
    · have hcname : c.name ≠ key := by
        intro he
        have : ct.name ∈ rest.map ColumnType.name := List.mem_map_of_mem _ hmem2
        rw [hkey, ← he] at this
        exact (List.nodup_cons.mp (by simpa using hnodup)).1 this
      have hc : (key == c.name) = false := by
        simp [beq_iff_eq]; exact fun he => hcname he.symm
      simp only [CheckTypeLoop, hc, Bool.false_eq_true, if_false]
      exact ih hmem2 ((List.nodup_cons.mp (by simpa using hnodup)).2)

/-- C5: inbound validation. For a table with pairwise distinct column names:
a null value for a column present in the metadata is accepted exactly when the
column is nullable; a string value is rejected when the scan type of its
column is not RawBytes (the variable-length byte/text scan type); a numeric
value is rejected when the scan type of its column is one of the driver scan
type names that is not numeric; and a key matching no column of the metadata
is always accepted. -/
theorem C5_check_type (t : Table) (key : String)
    (hnodup : (t.columnTypes.map ColumnType.name).Nodup) :
    (∀ ct ∈ t.columnTypes, ct.name = key →
      (CheckType key Json.null t = ct.nullable) ∧
      (∀ s : String, ct.scanTypeName ≠ "RawBytes" → CheckType key (Json.str s) t = false) ∧
      (∀ n : Int, ct.scanTypeName ∈ mysqlScanTypeNames → ct.scanTypeName ∉ numericScanTypeNames →
        CheckType key (Json.num n) t = false)) ∧
    ((∀ ct ∈ t.columnTypes, ct.name ≠ key) → ∀ v : Json, CheckType key v t = true) := by
  constructor
  · intro ct hmem hkey
    refine ⟨CheckTypeLoop_null key _ ct hmem hkey hnodup, ?_, ?_⟩
    · intro s hscan
      exact CheckTypeLoop_str key s _ ct hmem hkey hnodup hscan
    · intro n hmemscan hnotnum
      have hall : ∀ s ∈ mysqlScanTypeNames, s ∉ numericScanTypeNames →
          strContains FloatIntString s = false := by decide
      have hscan : strContains FloatIntString ct.scanTypeName = false :=
        hall _ hmemscan hnotnum
      exact CheckTypeLoop_num key n _ ct hmem hkey hnodup hscan
  · intro hnone v
    exact CheckTypeLoop_not_found key v _ hnone

/-- C5 witness: evaluation of the C5 theorem on a concrete table, key and
values. -/
theorem C5_witness :
    CheckType "note_text" Json.null c5Table = true ∧
    CheckType "created" (Json.str "x") c5Table = false ∧
    CheckType "created" (Json.num 3) c5Table = false ∧
    CheckType "missing" (Json.num 3) c5Table = true := by
  refine ⟨?_, ?_, ?_, ?_⟩
  · exact ((C5_check_type c5Table "note_text" (by decide)).1
      ⟨"note_text", "RawBytes", true⟩ (by decide) rfl).1
  · exact (((C5_check_type c5Table "created" (by decide)).1
      ⟨"created", "NullTime", false⟩ (by decide) rfl).2.1) "x" (by decide)
  · exact (((C5_check_type c5Table "created" (by decide)).1
      ⟨"created", "NullTime", false⟩ (by decide) rfl).2.2) 3 (by decide) (by decide)
  · exact (C5_check_type c5Table "missing" (by decide)).2 (by decide) (Json.num 3)

/-- C4 counterexample: an unparsable byte cell in an integer-typed column makes
the coercion fail with the strconv.Atoi parse error, which is a different
error from ErrCastingType, contradicting the claim that a failed parse fails
with CastingError. -/
theorem C4_counterexample :
    castCell ⟨"user_id", "int32", false⟩ (RawCell.bytes "abc")
      = Except.error (CastErr.atoiErr "abc") ∧
    CastErr.atoiErr "abc" ≠ CastErr.castingType :=
  ⟨rfl, by decide⟩

/-- C4 (amended): outbound coercion returns null for a null cell and
CastingError for a non-byte cell; a byte cell is parsed as an integer when the
scan type name contains "int", as a 64-bit float when it contains "float", and
kept verbatim as a string otherwise; a failed integer or float parse makes the
coercion fail with the respective strconv parse error (not with CastingError),
and any coercion failure is surfaced as a 500 response. -/
theorem C4_amended :
    (∀ (ct : ColumnType) (cell : RawCell), castCell ct cell = specCastCell ct cell) ∧
    (∀ (t : Table) (lim off : String) (rows : List Row) (e : CastErr),
      castRows t ((rows.drop (digitsToNat (effectiveOffset off))).take
          (digitsToNat (effectiveLimit lim))) = .error e →
      (GetTableValues t lim off rows).1 = ⟨500, .textBody (castErrText e)⟩) := by
  constructor
  · intro ct cell
    cases cell with
    | null => rfl
    | nonBytes => rfl
    | bytes b =>
      simp only [castCell, specCastCell, scanKindOf]
      by_cases h1 : strContains ct.scanTypeName "int"
      · simp only [h1, if_true]
        cases hA : goAtoi b <;> simp [hA, Option.elim]
      · simp only [h1, Bool.false_eq_true, if_false]
        by_cases h2 : strContains ct.scanTypeName "float"
        · simp [h1, h2]
        · simp [h1, h2]
  · intro t lim off rows e h
    simp [GetTableValues, h]

/-- C4 amended witness: evaluation on a concrete column and table. -/
theorem C4_amended_witness :
    castCell ⟨"item_id", "int32", false⟩ (RawCell.bytes "7")
      = specCastCell ⟨"item_id", "int32", false⟩ (RawCell.bytes "7") ∧
    (GetTableValues c4Table "" "" c4Rows).1
      = ⟨500, .textBody (castErrText (CastErr.atoiErr "abc"))⟩ :=
  ⟨C4_amended.1 ⟨"item_id", "int32", false⟩ (RawCell.bytes "7"),
   C4_amended.2 c4Table "" "" c4Rows (CastErr.atoiErr "abc") rfl⟩

/-- The limit text actually used, restated with the wording of the claim. -/
theorem effectiveLimit_eq (lim : String) :
    effectiveLimit lim = if lim ≠ "" ∧ lim.data.all Char.isDigit then lim else "5" := by
  unfold effectiveLimit regMatchDigits
  by_cases he : lim = ""
  · subst he; rfl
  · have hbe : (lim == "") = false := by simp [beq_iff_eq, he]
    have hde : lim.data.isEmpty = false := by
      cases lim with
      | mk data =>
        cases data with
        | nil => exact absurd rfl he
        | cons c cs => rfl
    by_cases hd : lim.data.all Char.isDigit
    · simp [hbe, hde, hd, he]
    · simp [hbe, hde, hd, he]

/-- The offset text actually used, restated with the wording of the claim. -/
theorem effectiveOffset_eq (off : String) :
    effectiveOffset off = if off ≠ "" ∧ off.data.all Char.isDigit then off else "0" := by
  unfold effectiveOffset regMatchDigits
  by_cases he : off = ""
  · subst he; rfl
  · have hbe : (off == "") = false := by simp [beq_iff_eq, he]
    have hde : off.data.isEmpty = false := by
      cases off with
      | mk data =>
        cases data with
        | nil => exact absurd rfl he
        | cons c cs => rfl
    by_cases hd : off.data.all Char.isDigit
    · simp [hbe, hde, hd, he]
    · simp [hbe, hde, hd, he]

/-- C7: for every list-rows request, the executed query uses the limit query
parameter exactly when it is a non-empty all-digits string and the literal "5"
otherwise, and the offset parameter exactly when all-digits and "0" otherwise;
no upper bound is enforced: every non-empty all-digits parameter, however
large, is used verbatim. -/
theorem C7_list_limit_offset (t : Table) (lim off : String) (rows : List Row) :
    ((GetTableValues t lim off rows).2.2 =
      ["SELECT * FROM " ++ t.name ++ " LIMIT " ++
        (if lim ≠ "" ∧ lim.data.all Char.isDigit then lim else "5") ++ " OFFSET " ++
        (if off ≠ "" ∧ off.data.all Char.isDigit then off else "0")]) ∧
    (∀ s : String, s ≠ "" → s.data.all Char.isDigit = true →
      effectiveLimit s = s ∧ effectiveOffset s = s) := by
  constructor
  · have hq : (GetTableValues t lim off rows).2.2 = [listRowsQuery t lim off] := by
      unfold GetTableValues
      cases hc : castRows t ((rows.drop (digitsToNat (effectiveOffset off))).take
          (digitsToNat (effectiveLimit lim))) <;> simp [hc]
    rw [hq]
    unfold listRowsQuery
    rw [effectiveLimit_eq, effectiveOffset_eq]
  · intro s hne hd
    constructor
    · rw [effectiveLimit_eq]; simp [hne, hd]
    · rw [effectiveOffset_eq]; simp [hne, hd]

/-- C7 witness: a very large all-digits limit is used verbatim; a non-digits
offset falls back to "0". -/
theorem C7_witness :
    (GetTableValues c4Table "123456789123456789" "zz" c4Rows).2.2 =
      ["SELECT * FROM items LIMIT 123456789123456789 OFFSET 0"] ∧
    effectiveLimit "123456789123456789" = "123456789123456789" := by
  have h := C7_list_limit_offset c4Table "123456789123456789" "zz" c4Rows
  refine ⟨?_, (h.2 "123456789123456789" (by decide) (by decide)).1⟩
  rw [h.1]
  rfl

/-- C8: GET on the root path returns exactly the discovered table names —
the answered list is a permutation of the catalog names — sorted ascending,
under the response-tables shape; and the answer does not depend on the
catalog map iteration order (any permutation of the catalog yields the same
response). -/
theorem C8_tables_sorted (catalog : List Table) :
    (∃ names : List String,
      GetTables catalog =
        ⟨200, .jsonBody (.obj [("response", .obj [("tables", .arr (names.map Json.str))])])⟩ ∧
      names.Perm (catalog.map Table.name) ∧
      names.Sorted (· ≤ ·)) ∧
    (∀ catalog2 : List Table, catalog.Perm catalog2 →
      GetTables catalog = GetTables catalog2) := by
  constructor
  · refine ⟨List.insertionSort (fun a b : String => a ≤ b) (catalog.map Table.name),
      rfl, ?_, ?_⟩
    · exact List.perm_insertionSort _ _
    · exact List.sorted_insertionSort _ _
  · intro catalog2 hperm
    unfold GetTables
    have hnames : (catalog.map Table.name).Perm (catalog2.map Table.name) :=
      hperm.map Table.name
    have hsorteq : List.insertionSort (fun a b : String => a ≤ b) (catalog.map Table.name)
        = List.insertionSort (fun a b : String => a ≤ b) (catalog2.map Table.name) := by
      apply List.eq_of_perm_of_sorted
        (((List.perm_insertionSort _ _).trans hnames).trans
          (List.perm_insertionSort (fun a b : String => a ≤ b) (catalog2.map Table.name)).symm)
        (List.sorted_insertionSort _ _) (List.sorted_insertionSort _ _)
    rw [hsorteq]

/-- C8 witness: two concrete catalog orders give the same response. -/
theorem C8_witness :
    GetTables [c8TableB, c8TableA] = GetTables [c8TableA, c8TableB] :=
  (C8_tables_sorted [c8TableB, c8TableA]).2 [c8TableA, c8TableB]
    (List.Perm.swap c8TableA c8TableB [])

/-- C9: the schema catalog is never mutated by request handling: serving any
request, and any sequence of requests, leaves the catalog exactly as
discovered at startup. -/
theorem C9_catalog_immutable (st : ServerState) (reqs : List Request) :
    (serve st reqs).catalog = st.catalog ∧
    ∀ req : Request, ((stepServer st req).1).catalog = st.catalog := by
  constructor
  · induction reqs generalizing st with
    | nil => rfl
    | cons r rest ih => exact (ih ((stepServer st r).1)).trans rfl
  · intro req
    rfl

/-- Evaluation of DeleteRecord when the path carries an id and the inferred
id column exists: exactly one statement (the DELETE) is executed, the matching
rows are removed and their count is answered. -/
theorem DeleteRecord_eq (t : Table) (path idv : String) (rows : List Row)
    (hpath : (goSplitSlash path).get? 2 = some idv)
    (hid : t.columns.contains (deleteRecordIdName t) = true) :
    DeleteRecord t path rows =
      (deletedResp ((rows.filter
          (fun r => rowCell r (deleteRecordIdName t) == some idv)).length),
       rows.filter (fun r => !(rowCell r (deleteRecordIdName t) == some idv)),
       [deleteQuery t]) := by
  unfold DeleteRecord
  simp only [hpath, sqlDelete, hid, if_true, deletedResp]

/-- C6: for every table whose inferred id column exists, DELETE issues only
the DELETE statement itself (no existence probe) and answers the affected-row
count: when no stored row matches the id the answer is deleted 0 with the rows
unchanged, deleting again after a delete of the same id answers deleted 0, and
when a unique row matches the answer is deleted 1. -/
theorem C6_delete_count (t : Table) (path idv : String) (rows : List Row)
    (hpath : (goSplitSlash path).get? 2 = some idv)
    (hid : t.columns.contains (deleteRecordIdName t) = true) :
    (DeleteRecord t path rows =
      (deletedResp (rows.countP (fun r => rowCell r (deleteRecordIdName t) == some idv)),
       rows.filter (fun r => !(rowCell r (deleteRecordIdName t) == some idv)),
       [deleteQuery t])) ∧
    ((∀ r ∈ rows, (rowCell r (deleteRecordIdName t) == some idv) = false) →
      DeleteRecord t path rows = (deletedResp 0, rows, [deleteQuery t])) ∧
    ((DeleteRecord t path ((DeleteRecord t path rows).2.1)).1 = deletedResp 0) ∧
    ((∃ r ∈ rows, (rowCell r (deleteRecordIdName t) == some idv) = true) →
      rows.countP (fun r => rowCell r (deleteRecordIdName t) == some idv) ≤ 1 →
      (DeleteRecord t path rows).1 = deletedResp 1) := by
  have heq := DeleteRecord_eq t path idv rows hpath hid
  have hcount : (rows.filter
      (fun r => rowCell r (deleteRecordIdName t) == some idv)).length
      = rows.countP (fun r => rowCell r (deleteRecordIdName t) == some idv) :=
    (List.countP_eq_length_filter _ rows).symm
  refine ⟨by rw [heq, hcount], ?_, ?_, ?_⟩
  · intro hnone
    rw [heq, hcount]
    have h0 : rows.countP (fun r => rowCell r (deleteRecordIdName t) == some idv) = 0 :=
      List.countP_eq_zero.mpr (by intro a ha; simp [hnone a ha])
    have hfil : rows.filter (fun r => !(rowCell r (deleteRecordIdName t) == some idv)) = rows :=
      List.filter_eq_self.mpr (by intro a ha; simp [hnone a ha])
    rw [h0, hfil]
  · have hrows2 : (DeleteRecord t path rows).2.1 =
        rows.filter (fun r => !(rowCell r (deleteRecordIdName t) == some idv)) := by
      rw [heq]
    rw [hrows2]
    have heq2 := DeleteRecord_eq t path idv
      (rows.filter (fun r => !(rowCell r (deleteRecordIdName t) == some idv))) hpath hid
    rw [heq2]
    have h0 : ((rows.filter (fun r => !(rowCell r (deleteRecordIdName t) == some idv))).filter
        (fun r => rowCell r (deleteRecordIdName t) == some idv)).length = 0 := by
      rw [List.length_eq_zero]
      apply List.filter_eq_nil_iff.mpr
      intro a ha
      have := (List.mem_filter.mp ha).2
      simp at this
      simp [this]
    rw [h0]
  · intro hex hle
    have hpos : 0 < rows.countP (fun r => rowCell r (deleteRecordIdName t) == some idv) :=
      List.countP_pos_iff.mpr (by
        obtain ⟨r, hr, hm⟩ := hex
        exact ⟨r, hr, hm⟩)
    have h1 : rows.countP (fun r => rowCell r (deleteRecordIdName t) == some idv) = 1 :=
      Nat.le_antisymm hle hpos
    rw [heq, hcount, h1]

/-- C6 witness: deleting an existing unique id answers deleted 1; deleting a
non-existent id answers deleted 0 with the rows unchanged. -/
theorem C6_witness :
    (DeleteRecord ordersTable "/orders/1" ordersRows).1 = deletedResp 1 ∧
    DeleteRecord ordersTable "/orders/9" ordersRows = (deletedResp 0, ordersRows,
      [deleteQuery ordersTable]) := by
  constructor
  · exact (C6_delete_count ordersTable "/orders/1" "1" ordersRows rfl (by decide)).2.2.2
      ⟨[("order_id", some "1"), ("title", some "first")], by decide, by decide⟩ (by decide)
  · exact (C6_delete_count ordersTable "/orders/9" "9" ordersRows rfl (by decide)).2.1
      (by decide)

/-- When some body entry is rejected by CheckType or names the id column, the
update validation loop aborts with the key of the first such entry in
iteration order, whichever order the body map is iterated in. -/
theorem updateValidate_error_of_bad (t : Table) (idName : String)
    (body : List (String × Json))
    (hbad : ∃ kv ∈ body, CheckType kv.1 kv.2 t = false ∨ kv.1 = idName) :
    ∃ k : String, (∃ v : Json, (k, v) ∈ body ∧ (CheckType k v t = false ∨ k = idName)) ∧
      updateValidate t idName body = .error k := by
  induction body with
  | nil =>
    obtain ⟨kv, hm, _⟩ := hbad
    cases hm
  | cons kv rest ih =>
    obtain ⟨k0, v0⟩ := kv
    by_cases hh : (!(CheckType k0 v0 t) || idName == k0) = true
    · refine ⟨k0, ⟨v0, List.mem_cons_self _ _, ?_⟩, ?_⟩
      · have hh2 : (!(CheckType k0 v0 t)) = true ∨ (idName == k0) = true := by
          simpa using hh
        rcases hh2 with h | h
        · exact Or.inl (by simpa using h)
        · exact Or.inr (by have := beq_iff_eq.mp h; exact this.symm)
      · simp [updateValidate, hh]
    · have hrest : ∃ kv ∈ rest, CheckType kv.1 kv.2 t = false ∨ kv.1 = idName := by
        obtain ⟨kv2, hm, hor⟩ := hbad
        rcases List.mem_cons.mp hm with he | hm2
        · exfalso
          subst he
          simp only [Bool.or_eq_true, Bool.not_eq_true', beq_iff_eq] at hh
          push_neg at hh
          rcases hor with h | h
          · exact absurd h hh.1
          · exact absurd h.symm hh.2
        · exact ⟨kv2, hm2, hor⟩
      obtain ⟨k, ⟨v, hv, hor⟩, herr⟩ := ih hrest
      refine ⟨k, ⟨v, List.mem_cons_of_mem _ hv, hor⟩, ?_⟩
      simp [updateValidate, hh, herr]

/-- C2: for every update request whose target record exists (and whose
inferred id column is a real column, so the existence probe succeeds) and
whose body contains an entry rejected by inbound validation or naming the id
column, the handler answers 400 with the field-invalid-type error body naming
an offending field, the stored rows are unchanged, and the only statement
executed is the EXISTS probe — no UPDATE runs, so no partial update occurs. -/
theorem C2_update_no_partial (t : Table) (path idv : String)
    (body : List (String × Json)) (rows : List Row)
    (hpath : (goSplitSlash path).get? 2 = some idv)
    (hid : t.columns.contains (updateRecordIdName t) = true)
    (hex : rows.any (fun r => rowCell r (updateRecordIdName t) == some idv) = true)
    (hbad : ∃ kv ∈ body, CheckType kv.1 kv.2 t = false ∨ kv.1 = updateRecordIdName t) :
    ∃ k : String,
      (∃ v : Json, (k, v) ∈ body ∧ (CheckType k v t = false ∨ k = updateRecordIdName t)) ∧
      UpdateRecord t path body rows =
        (⟨400, .jsonBody (.obj [("error", .str ("field " ++ k ++ " have invalid type"))])⟩,
         rows, [updateExistsQuery t]) := by
  obtain ⟨k, hk, herr⟩ := updateValidate_error_of_bad t (updateRecordIdName t) body hbad
  refine ⟨k, hk, ?_⟩
  unfold UpdateRecord
  simp only [hpath, sqlExists, hid, if_true, hex, herr]

/-- C2 witness: a number supplied for a text column aborts the update with 400
and no UPDATE statement. -/
theorem C2_witness :
    ∃ k : String,
      (∃ v : Json, (k, v) ∈ [("title", Json.num 3)] ∧
        (CheckType k v ordersTable = false ∨ k = updateRecordIdName ordersTable)) ∧
      UpdateRecord ordersTable "/orders/1" [("title", Json.num 3)] ordersRows =
        (⟨400, .jsonBody (.obj [("error", .str ("field " ++ k ++ " have invalid type"))])⟩,
         ordersRows, [updateExistsQuery ordersTable]) :=
  C2_update_no_partial ordersTable "/orders/1" "1" [("title", Json.num 3)] ordersRows
    rfl (by decide) (by decide)
    ⟨("title", Json.num 3), List.mem_cons_self _ _, Or.inl (by decide)⟩

/-- Characterization of the PutRecord selection fold for an arbitrary
accumulator: the fields are the non-id keys in order, the values are the
accepted candidate values with rejected ones blanked, and the response key is
the last id-matching key. -/
theorem putSelect_foldl (t : Table) (entries : List (String × Json))
    (fs : List String) (vs : List Json) (idn : String) :
    entries.foldl (putStep t) (fs, vs, idn) =
      (fs ++ (entries.filter (fun kv => !(strContains kv.1 "id"))).map Prod.fst,
       vs ++ (entries.filter (fun kv => !(strContains kv.1 "id"))).map
         (fun kv => if CheckType kv.1 kv.2 t then kv.2 else Json.str ""),
       ((entries.filter (fun kv => strContains kv.1 "id")).map Prod.fst).getLastD idn) := by
  induction entries generalizing fs vs idn with
  | nil => simp
  | cons kv rest ih =>
    by_cases h1 : strContains kv.1 "id"
    · have hstep : putStep t (fs, vs, idn) kv = (fs, vs, kv.1) := by
        simp [putStep, h1]
      simp only [List.foldl_cons, hstep, ih, List.filter_cons, h1, Bool.not_true,
        Bool.false_eq_true, if_false, if_true, List.map_cons, List.getLastD_cons]
    · by_cases h2 : CheckType kv.1 kv.2 t
      · have hstep : putStep t (fs, vs, idn) kv = (fs ++ [kv.1], vs ++ [kv.2], idn) := by
          simp [putStep, h1, h2]
        simp only [List.foldl_cons, hstep, ih, List.filter_cons, h1, Bool.not_false,
          Bool.false_eq_true, if_false, if_true, List.map_cons, h2, List.append_assoc,
          List.singleton_append]
      · have hstep : putStep t (fs, vs, idn) kv = (fs ++ [kv.1], vs ++ [Json.str ""], idn) := by
          simp [putStep, h1, h2]
        simp only [List.foldl_cons, hstep, ih, List.filter_cons, h1, Bool.not_false,
          Bool.false_eq_true, if_false, if_true, List.map_cons, h2, List.append_assoc,
          List.singleton_append]

/-- C3: for every insert request (over any iteration order of the merged value
map), the selection loop excludes every id-matching key from the INSERT field
and value lists, diverting the last such key to the response key slot, and
every remaining entry is inserted with its candidate value when CheckType
accepts it and with the empty string when it rejects it; on a successful
INSERT the response object is keyed by the diverted id name. -/
theorem C3_insert_selection (t : Table) (entries : List (String × Json)) :
    (putSelect t entries =
      ((entries.filter (fun kv => !(strContains kv.1 "id"))).map Prod.fst,
       (entries.filter (fun kv => !(strContains kv.1 "id"))).map
         (fun kv => if CheckType kv.1 kv.2 t then kv.2 else Json.str ""),
       ((entries.filter (fun kv => strContains kv.1 "id")).map Prod.fst).getLastD "")) ∧
    (∀ k : String, strContains k "id" = true → k ∉ (putSelect t entries).1) ∧
    (∀ (body : List (String × Json)) (rows : List Row) (n : Int) (rows2 : List Row),
      sqlInsert t (putSelect t (mergedPutEntries t body)).1
          (putSelect t (mergedPutEntries t body)).2.1 rows = .ok (n, rows2) →
      PutRecord t body rows =
        (⟨200, .jsonBody (.obj [("response",
            .obj [((putSelect t (mergedPutEntries t body)).2.2, .num n)])])⟩,
         rows2, [putQuery t (putSelect t (mergedPutEntries t body)).1])) := by
  have hchar := putSelect_foldl t entries [] [] ""
  refine ⟨by simpa [putSelect] using hchar, ?_, ?_⟩
  · intro k hk hmem
    have h1 : (putSelect t entries).1 =
        (entries.filter (fun kv => !(strContains kv.1 "id"))).map Prod.fst := by
      simpa [putSelect] using congrArg (fun x => x.1) hchar
    rw [h1] at hmem
    obtain ⟨kv, hkv, hfst⟩ := List.mem_map.mp hmem
    have := (List.mem_filter.mp hkv).2
    rw [hfst] at this
    simp [hk] at this
  · intro body rows n rows2 hins
    unfold PutRecord
    simp only [hins]

/-- C3 witness: a supplied id value is dropped and its key reused as the
response key; a rejected value is blanked to the empty string. -/
theorem C3_witness :
    putSelect ordersTable [("order_id", Json.num 5), ("title", Json.num 3)] =
      (["title"], [Json.str ""], "order_id") ∧
    "order_id" ∉ (putSelect ordersTable [("order_id", Json.num 5), ("title", Json.num 3)]).1 := by
  have h := C3_insert_selection ordersTable [("order_id", Json.num 5), ("title", Json.num 3)]
  constructor
  · rw [h.1]
    rfl
  · exact h.2.1 "order_id" (by decide)

/-- A case-sensitive "id" substring survives ASCII lowering: if a column name
contains "id", so does its lowered form. -/
theorem contains_id_lower (c : String) (h : strContains c "id" = true) :
    strContains (lowerStr c) "id" = true := by
  unfold strContains listContains at h ⊢
  rw [List.any_eq_true] at h ⊢
  obtain ⟨tl, htl, hp⟩ := h
  refine ⟨tl.map Char.toLower, ?_, ?_⟩
  · show tl.map Char.toLower ∈ (lowerStr c).data.tails
    have hdata : (lowerStr c).data = c.data.map Char.toLower := rfl
    rw [hdata, List.map_tails]
    exact List.mem_map_of_mem _ htl
  · rw [List.isPrefixOf_iff_prefix] at hp ⊢
    have hmap := hp.map Char.toLower
    have hid : ("id".data).map Char.toLower = "id".data := by decide
    rwa [hid] at hmap

/-- C10: on a table without any id-matching column (and without a column
literally named by the empty string), the get-row handler answers 400
"unknown parameter" without issuing any SQL, while the update and delete
handlers have no guard: update issues its EXISTS probe and delete its DELETE
with an empty id column name, and both surface the resulting database error
as a 500 response, leaving the rows unchanged. -/
theorem C10_missing_id_column (t : Table) (path idv : String)
    (body : List (String × Json)) (rows : List Row)
    (hpath : (goSplitSlash path).get? 2 = some idv)
    (hno : ∀ c ∈ t.columns, strContains (lowerStr c) "id" = false)
    (hne : t.columns.contains "" = false) :
    GetRecord t path rows = (⟨400, .textBody "unknown parameter"⟩, rows, []) ∧
    UpdateRecord t path body rows =
      (⟨500, .textBody badSqlMsg⟩, rows, [updateExistsQuery t]) ∧
    DeleteRecord t path rows = (⟨500, .textBody badSqlMsg⟩, rows, [deleteQuery t]) := by
  have hciEmpty : t.columns.filter (fun c => strContains (lowerStr c) "id") = [] :=
    List.filter_eq_nil_iff.mpr (fun a ha => by simp [hno a ha])
  have hcsEmpty : t.columns.filter (fun c => strContains c "id") = [] :=
    List.filter_eq_nil_iff.mpr (fun a ha => by
      intro hA
      have := contains_id_lower a hA
      rw [hno a ha] at this
      exact Bool.false_ne_true this)
  have hupd : updateRecordIdName t = "" := by
    unfold updateRecordIdName
    rw [foldl_keepIf_eq_getLastD, hciEmpty]
    rfl
  have hdel : deleteRecordIdName t = "" := by
    unfold deleteRecordIdName
    rw [foldl_keepIf_eq_getLastD, hciEmpty]
    rfl
  have hget : getRecordIdName t = "" := by
    unfold getRecordIdName
    rw [foldl_keepIf_eq_getLastD, hcsEmpty]
    rfl
  have hpath2 : (goSplitSlash path)[2]? = some idv := by
    rw [← List.get?_eq_getElem?]
    exact hpath
  have hne2 : "" ∉ t.columns := by simpa using hne
  refine ⟨?_, ?_, ?_⟩
  · unfold GetRecord
    simp [hpath2, hget]
  · unfold UpdateRecord
    simp [hpath2, sqlExists, hupd, hne2]
  · unfold DeleteRecord
    simp [hpath2, sqlDelete, hdel, hne2]

/-- C10 witness: evaluation on a concrete table without an id column. -/
theorem C10_witness :
    GetRecord plainTable "/plain/3" [] = (⟨400, .textBody "unknown parameter"⟩, [], []) ∧
    UpdateRecord plainTable "/plain/3" [] [] =
      (⟨500, .textBody badSqlMsg⟩, [], [updateExistsQuery plainTable]) ∧
    DeleteRecord plainTable "/plain/3" [] =
      (⟨500, .textBody badSqlMsg⟩, [], [deleteQuery plainTable]) :=
  C10_missing_id_column plainTable "/plain/3" "3" [] [] rfl (by decide) (by decide)

end DBExplorer
